import Mathlib

/-!
Verification of the CFSI cloud-free satellite imagery pipeline
(`GispoCoding/CFSI`) against its natural-language specification.

The development shallowly embeds the Python source:

* strings are `List Char` (`Str`), with Python's `in` operator embedded as
  `containsL` and `str.replace` (which replaces every non-overlapping
  occurrence, scanning left to right) embedded as `replAll`;
* NumPy 2-D arrays are `List (List ℚ)` (`Mat`); slicing follows Python
  slice semantics including negative bounds, and `np.append` checks the
  shapes along the non-concatenation axis as NumPy does, erroring out like
  the `ValueError` NumPy raises;
* fallible Python code returns `Except PyErr`;
* floating point trigonometry (`cos`/`sin` of the sun azimuth) stays
  outside the model: the functions that consume the resulting shift values
  take them as exact rational parameters.  At a cloud projection distance
  of `0` the shifts are exactly `0.0` in the source as well;
* external collaborators (the object store, the rasterio/GDAL codecs, the
  datacube catalog) are passed in as explicit function parameters, modelled
  by their documented contracts.
-/

namespace CFSI

/-- Python strings, embedded as lists of characters. -/
abbrev Str := List Char

/-- Python's substring test `pat in s` for strings. -/
def containsL (pat : Str) : Str → Bool
  | [] => pat.isEmpty
  | c :: t => pat.isPrefixOf (c :: t) || containsL pat t

/-- Fuelled worker for `replAll`; the fuel only serves structural recursion
and never runs out when it starts at the string's length. -/
def replAllAux (pat rep : Str) : ℕ → Str → Str
  | 0, s => s
  | _ + 1, [] => []
  | fuel + 1, c :: t =>
    if pat ≠ [] ∧ pat.isPrefixOf (c :: t) then
      rep ++ replAllAux pat rep fuel ((c :: t).drop pat.length)
    else
      c :: replAllAux pat rep fuel t

/-- Python's `s.replace(pat, rep)` for a non-empty `pat`: replace every
non-overlapping occurrence of `pat`, scanning left to right. -/
def replAll (pat rep : Str) (s : Str) : Str :=
  replAllAux pat rep s.length s

/-- Python exceptions raised by the embedded CFSI code. -/
inductive PyErr where
  /-- `ValueError`, also the error NumPy raises on shape mismatch. -/
  | valueError : PyErr
  /-- `KeyError` from a missing dict key. -/
  | keyError : PyErr
  /-- `cfsi.exceptions.ProductNotFoundException`. -/
  | productNotFound : PyErr
  deriving DecidableEq, Repr

/-- Constant `L1C_BUCKET` from `cfsi/utils/utils.py`. -/
def L1C_BUCKET : Str := ("sentinel-s2-l1c").toList

/-- Constant `L2A_BUCKET` from `cfsi/utils/utils.py`. -/
def L2A_BUCKET : Str := ("sentinel-s2-l2a").toList

/-- `cfsi.utils.utils.swap_s2_bucket_names`: swaps L1C and L2A bucket names
in the given URI string, raising `ValueError` when neither occurs. -/
def swap_s2_bucket_names (uri : Str) : Except PyErr Str :=
  if containsL L1C_BUCKET uri then
    .ok (replAll L1C_BUCKET L2A_BUCKET uri)
  else if containsL L2A_BUCKET uri then
    .ok (replAll L2A_BUCKET L1C_BUCKET uri)
  else
    .error .valueError

/-- `CloudMaskGenerator._check_clouds_in_threshold` from
`cfsi/scripts/masks/cloud_mask_generator.py`: returns the metadata cloud
percentage together with the in-threshold flag computed by the
`if cloud_percent > max_cloud` / `elif cloud_percent < min_cloud` chain. -/
def check_clouds_in_threshold (cloudPercent maxCloud minCloud : ℚ) : ℚ × Bool :=
  let inThreshold :=
    if cloudPercent > maxCloud then false
    else if cloudPercent < minCloud then false
    else true
  (cloudPercent, inThreshold)

/-- Opaque handle standing for a `datacube.model.Dataset` returned by a
catalog search in `MosaicCreator.__get_mask_datasets`. -/
abbrev DSHandle := ℕ

/-- `MosaicCreator.__get_mask_datasets` from `cfsi/scripts/mosaic/mosaic.py`:
searches the catalog for mask datasets of the product over the time range and
raises `ValueError("No datasets found")` when the search comes back empty.
The catalog is the injected `findDatasets` function. -/
def get_mask_datasets (findDatasets : Str → ℤ × ℤ → List DSHandle)
    (productName : Str) (timeRange : ℤ × ℤ) : Except PyErr (List DSHandle) :=
  let datasets := findDatasets productName timeRange
  if datasets.isEmpty then .error .valueError else .ok datasets

/-- `MosaicCreator.__init__` from `cfsi/scripts/mosaic/mosaic.py`, restricted
to the state the claims touch: computes `start_date = end_date - days` and
stores the result of `__get_mask_datasets`, so an empty search surfaces the
error to the caller constructing the `MosaicCreator`. -/
def MosaicCreator.init (findDatasets : Str → ℤ × ℤ → List DSHandle)
    (maskProductName : Str) (endDate : ℤ) (days : ℤ) :
    Except PyErr (List DSHandle) :=
  let startDate := endDate - days
  get_mask_datasets findDatasets maskProductName (startDate, endDate)

/-- Two successive applications of `swap_s2_bucket_names`, the round trip of
the spec's `swapBucket(swapBucket(u))`. -/
def swapTwice (u : Str) : Except PyErr Str :=
  (swap_s2_bucket_names u).bind swap_s2_bucket_names

/-- One raster band of one time slice, as a pixel function `(x, y) ↦ value`.
The mosaic code of `cfsi/scripts/mosaic/mosaic.py` only combines arrays
pointwise and indexes along the time axis, so spatial extent needs no
explicit shape here. -/
abbrev Grid := ℕ → ℕ → ℤ

/-- xarray's `ds.where(cond, 0)`: keep the value where the condition holds,
put `0` (the nodata value) elsewhere. -/
def whereMask (cond : ℕ → ℕ → Bool) (g : Grid) : Grid :=
  fun x y => if cond x y then g x y else 0

/-- The clear predicate `(ds.cloud_mask == 0) & (ds.shadow_mask == 0)` used by
`MosaicCreator.__apply_mask` for the `s2_level1c_s2cloudless` product. -/
def clearS2Cloudless (cloudMask shadowMask : Grid) : ℕ → ℕ → Bool :=
  fun x y => (cloudMask x y == 0) && (shadowMask x y == 0)

/-- The clear predicate `(ds.fmask == 1) | (ds.fmask == 4) | (ds.fmask == 5)`
used by `MosaicCreator.__apply_mask` for the `s2_level1c_fmask` product. -/
def clearFmask (fmask : Grid) : ℕ → ℕ → Bool :=
  fun x y => (fmask x y == 1) || (fmask x y == 4) || (fmask x y == 5)

/-- One step of the fill loop in `MosaicCreator.__mosaic_from_data_array`:
`out_arr[out_arr == 0] = da_slice.values[out_arr == 0]`. -/
def fillStep (out slice : Grid) : Grid :=
  fun x y => if out x y = 0 then slice x y else out x y

/-- `MosaicCreator.__mosaic_from_data_array` on one band's time stack
(time-ascending list of slices): seed the output with the latest slice
(`isel(time=-1)`, which fails on an empty time axis, hence `Option`), then
walk the time index from second-latest to oldest, filling pixels that are
still `0`. -/
def mosaic_from_data_array (slices : List Grid) : Option Grid :=
  match slices.getLast? with
  | none => none
  | some lastSlice => some ((slices.dropLast.reverse).foldl fillStep lastSlice)

/-- First value `≠ 0` in the list, `0` if none: the pointwise outcome of the
fill loop along the time axis. -/
def firstNonzero (l : List ℤ) : ℤ :=
  (l.find? (fun v => v != 0)).getD 0

/-- List indexing with default `0`, for stating which time slice supplied a
pixel. -/
def nthZ (l : List ℤ) (i : ℕ) : ℤ :=
  l.getD i 0

/-- A 2-D NumPy array, row-major, with rational entries (the mask arrays hold
small integers; the NIR band holds reflectance fractions). -/
abbrev Mat := List (List ℚ)

/-- The matrix `m` has exactly `r` rows of `c` entries each. -/
def IsRect (m : Mat) (r c : ℕ) : Prop :=
  m.length = r ∧ ∀ row ∈ m, row.length = c

/-- Entry `m[i][j]` with default `0`. -/
def nthQ (m : Mat) (i j : ℕ) : ℚ :=
  (m.getD i []).getD j 0

/-- Python's `int()` on a float value: truncation toward zero. -/
def pyInt (q : ℚ) : ℤ :=
  if 0 ≤ q then ⌊q⌋ else -⌊-q⌋

/-- Python slice `l[k:]`, including the from-the-end meaning of negative `k`
(clamped at the ends like Python does). -/
def pySliceFrom {α : Type} (k : ℤ) (l : List α) : List α :=
  if 0 ≤ k then l.drop k.toNat else l.drop (l.length - (-k).toNat)

/-- Python slice `l[:k]`, including the from-the-end meaning of negative `k`
(clamped at the ends like Python does); in particular `l[:0]` is empty. -/
def pySliceTo {α : Type} (k : ℤ) (l : List α) : List α :=
  if 0 ≤ k then l.take k.toNat else l.take (l.length - (-k).toNat)

/-- `np.zeros((r, c))` followed by `arr[:] = v`. -/
def npFull (r c : ℕ) (v : ℚ) : Mat :=
  List.replicate r (List.replicate c v)

/-- Row lengths all agree (the shape consistency NumPy tracks for 2-D
arrays). -/
def rowLensEq (m : Mat) : Bool :=
  match m with
  | [] => true
  | row :: rest => rest.all (fun q => q.length == row.length)

/-- `np.append(a, b, axis=0)`: concatenates rows; raises `ValueError` when
the column counts disagree. -/
def npAppendRows (a b : Mat) : Except PyErr Mat :=
  if rowLensEq (a ++ b) then .ok (a ++ b) else .error .valueError

/-- `np.append(a, b, axis=1)`: concatenates columns row by row; raises
`ValueError` when the row counts disagree. -/
def npAppendCols (a b : Mat) : Except PyErr Mat :=
  if a.length == b.length then .ok (List.zipWith (fun ra rb => ra ++ rb) a b)
  else .error .valueError

/-- Pointwise ternary zip used for the final
`np.where((clouds == 0) & (shifted == 1) & (dark == 1), 1, 0)`. -/
def zipWith3 {α β γ δ : Type} (f : α → β → γ → δ) :
    List α → List β → List γ → List δ
  | a :: as, b :: bs, c :: cs => f a b c :: zipWith3 f as bs cs
  | _, _, _ => []

/-- Shapes agree elementwise, as NumPy requires of the arrays combined by
`&` and `np.where`. -/
def sameShape (a b : Mat) : Bool :=
  a.length == b.length &&
    (List.zip a b).all (fun p => p.1.length == p.2.length)

/-- One output pixel of the final shadow mask:
`1` where `cloud == 0 ∧ shifted == 1 ∧ dark == 1`, else `0`. -/
def whereCSD (c s d : ℚ) : ℚ :=
  if c = 0 ∧ s = 1 ∧ d = 1 then 1 else 0

/-- `np.where((clouds == 0) & (shifted == 1) & (dark == 1), 1, 0)` with the
shape conformity NumPy enforces. -/
def npWhere3 (cloud shadow dark : Mat) : Except PyErr Mat :=
  if sameShape cloud shadow && sameShape cloud dark then
    .ok (zipWith3 (fun rc rs rd => zipWith3 whereCSD rc rs rd) cloud shadow dark)
  else .error .valueError

/-- The border rows `new_rows` of `generate_cloud_shadow_masks`
(`cfsi/scripts/masks/s2cloudless_masks.py` lines 80 and 87):
`np.zeros((abs(int(y)), cols))` followed by `new_rows[:] = 1`. -/
def shadow_border_rows (y : ℚ) (cols : ℕ) : Mat :=
  npFull (pyInt y).natAbs cols 1

/-- The border columns `new_cols` of `generate_cloud_shadow_masks`
(lines 81 and 88): `np.zeros((rows, abs(int(x))))` followed by
`new_cols[:] = 1`. -/
def shadow_border_cols (x : ℚ) (rows : ℕ) : Mat :=
  npFull rows (pyInt x).natAbs 1

/-- `DARK_PIXEL_THRESHOLD = 0.15` (exact here; the comparisons the theorems
make never sit on the float-vs-rational gap). -/
def DARK_PIXEL_THRESHOLD : ℚ := 3 / 20

/-- Catalog dataset ids (uuid.UUID handles), abstract. -/
abbrev DatasetId := ℕ

/-- The slice of a mask dataset that `MosaicCreator.__generate_mask_dict`
reads from `metadata_doc["properties"]`.  A dict key may be absent (outer
`Option`, access raises `KeyError`), and a present `l2a_dataset_id` may
still be null/falsy (inner `Option`). -/
structure MaskDSProps where
  /-- `mask_dataset.id`. -/
  dsid : DatasetId
  /-- `properties["l2a_dataset_id"]`. -/
  l2a_dataset_id : Option (Option DatasetId)
  /-- `properties["l2a_uri"]`. -/
  l2a_uri : Option Str

/-- `MosaicCreator.__generate_mask_dict` from
`cfsi/scripts/mosaic/mosaic.py` (lines 94–108), as the association list of
`mask_dataset.id ↦ l2a_dataset.id` pairs it builds.  The `lookup` parameter
stands for `cfsi.utils.load_datasets.odcdataset_from_uri` — imported by
`mosaic.py` but absent from the sources (only an older draft of
`load_datasets.py` is present) — modelled from the spec: it searches the
catalog for the `s2_sen2cor_granule` dataset with the given URI and raises
`ProductNotFoundException` (here: `none`) on a miss.  That exception is the
only one the source catches (log and continue); absent dict keys raise
`KeyError`, which propagates. -/
def generate_mask_dict (lookup : Str → Option DatasetId) :
    List MaskDSProps → Except PyErr (List (DatasetId × DatasetId))
  | [] => .ok []
  | ds :: rest =>
    match ds.l2a_dataset_id with
    | none => .error .keyError
    | some (some l2aId) =>
      (generate_mask_dict lookup rest).map (fun tail => (ds.dsid, l2aId) :: tail)
    | some none =>
      match ds.l2a_uri with
      | none => .error .keyError
      | some uri =>
        match lookup uri with
        | some l2aId =>
          (generate_mask_dict lookup rest).map (fun tail => (ds.dsid, l2aId) :: tail)
        | none => generate_mask_dict lookup rest

/-- The eo3 dataset document of `s2_index.generate_eo3_dataset_doc`,
restricted to the identity-relevant content: the rest of the parsed
`metadata.xml` payload is abstracted into one token. -/
structure EO3Doc where
  productName : Str
  uri : Str
  meta : ℕ
  deriving DecidableEq

/-- The catalog table of the injected datacube index: `id ↦ document`. -/
abbrev Catalog := List (Str × EO3Doc)

/-- `index.datasets.get(id)` of the catalog collaborator. -/
def catalogGet (cat : Catalog) (id : Str) : Option EO3Doc :=
  (cat.find? (fun p => p.1 == id)).map (fun p => p.2)

/-- `ODCIndexer.dataset_id_exists` from `cfsi/scripts/index/index.py`
(lines 102–107): `not index.datasets.get(id_)` decides the answer. -/
def dataset_id_exists (cat : Catalog) (id : Str) : Bool :=
  match catalogGet cat id with
  | none => false
  | some _ => true

/-- Observable side effects of one `index_from_s3` key iteration. -/
inductive IndexEffect where
  /-- `s3.Object(bucket, key).get(...)`. -/
  | fetch : IndexEffect
  /-- `ElementTree.fromstring(...)`. -/
  | parse : IndexEffect
  /-- `index.datasets.add(dataset)`. -/
  | addAttempt : IndexEffect
  /-- `index.datasets.update(dataset, ...)` after `DocumentMismatchError`. -/
  | updateCall : IndexEffect
  deriving DecidableEq, Repr

/-- `Path(key).parent` for S3 keys: drop the last `/`-separated segment. -/
def parentOfKey (key : Str) : Str :=
  ((key.reverse.dropWhile (fun c => c != '/')).drop 1).reverse

/-- `s2_index.get_s3_uri`: `"s3://" + str(Path(bucket_name / key_path.parent))`. -/
def get_s3_uri (bucket key : Str) : Str :=
  ("s3://").toList ++ bucket ++ ("/").toList ++ parentOfKey key

/-- `PRODUCT_NAMES[bucket_name]` from `s2_index.py`. -/
def product_name_for (bucket : Str) : Str :=
  if bucket = L1C_BUCKET then ("s2a_level1c_granule").toList
  else ("s2a_sen2cor_granule").toList

/-- The document `s2_index.generate_eo3_dataset_doc` produces for a bucket,
canonical URI and parsed metadata: deterministic in its inputs. -/
def generate_doc (bucket uri : Str) (meta : ℕ) : EO3Doc :=
  ⟨product_name_for bucket, uri, meta⟩

/-- `s2_index.add_dataset`'s catalog interaction: try `index.datasets.add`;
on `DocumentMismatchError` fall back to `index.datasets.update`.  The
injected datacube index is modelled by its documented contract: adding an id
that is already present with identical content is a no-op, and only
incompatible content raises the mismatch that triggers the update path. -/
def add_dataset (cat : Catalog) (id : Str) (doc : EO3Doc) :
    Catalog × List IndexEffect :=
  match catalogGet cat id with
  | none => ((id, doc) :: cat, [.addAttempt])
  | some existing =>
    if existing = doc then (cat, [.addAttempt])
    else (cat.map (fun p => if p.1 = id then (id, doc) else p),
      [.addAttempt, .updateCall])

/-- One key iteration of `s2_index.index_from_s3` (lines 187–209): fetch the
object, parse the XML, build the canonical URI and document, and hand the
document to `add_dataset`.  `md5hex` is the id fingerprint `md5(uri)`;
`fetchParse` stands for the S3 get plus the XML parse, returning the parsed
metadata payload.  Note there is no `exists` short-circuit in the source:
every iteration fetches and parses before touching the catalog. -/
def index_from_s3_key (md5hex : Str → Str) (fetchParse : Str → ℕ)
    (cat : Catalog) (bucket key : Str) : Catalog × List IndexEffect :=
  let meta := fetchParse key
  let uri := get_s3_uri bucket key
  let doc := generate_doc bucket uri meta
  let id := md5hex uri
  let res := add_dataset cat id doc
  (res.1, [.fetch, .parse] ++ res.2)

/-- `L1C_MEASUREMENTS` from `s2_index.py`. -/
def L1C_MEASUREMENTS : List Str :=
  [("B01_60m").toList, ("B02_10m").toList, ("B03_10m").toList,
   ("B04_10m").toList, ("B05_20m").toList, ("B06_20m").toList,
   ("B07_20m").toList, ("B08_10m").toList, ("B09_60m").toList,
   ("B8A_20m").toList, ("B10_60m").toList, ("B11_20m").toList,
   ("B12_20m").toList]

/-- `L2A_MEASUREMENTS` from `s2_index.py`: the listed resampled variants
plus the L1C list, with `B10_60m` removed (`list.remove` drops the first
occurrence). -/
def L2A_MEASUREMENTS : List Str :=
  (([("B02_20m").toList, ("B02_60m").toList, ("B03_20m").toList,
     ("B03_60m").toList, ("B04_20m").toList, ("B04_60m").toList,
     ("B05_60m").toList, ("B06_60m").toList, ("B07_60m").toList,
     ("B08_20m").toList, ("B08_60m").toList, ("B8A_60m").toList,
     ("B11_60m").toList, ("B12_60m").toList, ("SCL_20m").toList] ++
    L1C_MEASUREMENTS).erase (("B10_60m").toList))

/-- `s2_index.generate_measurements`, reduced to the `name ↦ path` pairs
(the grid tag plays no part in the path claims): L1C bands are renamed to
the bare band and the file is `band.jp2`; L2A keeps the full measurement
name and the file is `measurement.jp2`. -/
def generate_measurements (bucket : Str) : List (Str × Str) :=
  (if bucket = L1C_BUCKET then L1C_MEASUREMENTS else L2A_MEASUREMENTS).map
    (fun m =>
      let band := m.takeWhile (fun c => c != '_')
      if bucket = L1C_BUCKET then (band, band ++ (".jp2").toList)
      else (m, m ++ (".jp2").toList))

/-- `s2_index.absolutify_s3_paths`: each measurement path becomes
`uri + "/" + path`. -/
def absolutify_s3_paths (ms : List (Str × Str)) (uri : Str) : List (Str × Str) :=
  ms.map (fun p => (p.1, uri ++ ('/' :: p.2)))

/-- The measurement paths stored in a crawled granule document
(`s2_index.generate_eo3_dataset_doc` ends in `absolutify_s3_paths(eo3, uri)`
with `uri = get_s3_uri(bucket, key)`). -/
def s2_doc_measurement_paths (bucket key : Str) : List Str :=
  (absolutify_s3_paths (generate_measurements bucket) (get_s3_uri bucket key)).map
    (fun p => p.2)

/-- `cfsi.utils.utils.container_path_to_global_path` (lines 55–74): strip a
`file://` protocol prefix if present, then, when the remainder starts with
`CFSI_OUTPUT_CONTAINER`, replace (every occurrence of) the container root by
the host root; other paths are returned unchanged. -/
def container_path_to_global_path (containerRoot hostRoot : Str)
    (paths : List Str) : List Str :=
  paths.map (fun orig =>
    let hasProto := (("file://").toList).isPrefixOf orig
    let protocol := if hasProto then ("file://").toList else []
    let stripped := if hasProto then orig.drop (("file://").toList).length else orig
    if containerRoot.isPrefixOf stripped then
      protocol ++ replAll containerRoot hostRoot stripped
    else orig)

/-- The measurement paths stored by
`S2CloudlessIndexer.generate_eo3_dataset_doc`
(`cfsi/scripts/index/s2cloudless_index.py` lines 35–94): the cloud and
shadow mask paths are translated container→host and stored as plain path
strings (`"path": str(cloud_mask_path)`), with no scheme prefixed (the
`file:/` protocol goes only into the document `uri`). -/
def s2cloudless_doc_measurement_paths (cloudMaskPath shadowMaskPath : Str)
    (containerRoot hostRoot : Str) : List Str :=
  container_path_to_global_path containerRoot hostRoot
    [cloudMaskPath, shadowMaskPath]

/-- The measurement paths stored by `FmaskIndexer.generate_eo3_dataset_doc`
(`cfsi/scripts/index/fmask_index.py` lines 15–39): `str(mask_path)` of each
given mask path, as-is. -/
def fmask_doc_measurement_paths (maskPaths : List Str) : List Str :=
  maskPaths

/-- String starts with `s3://`. -/
def startsWithS3 (p : Str) : Bool :=
  (("s3://").toList).isPrefixOf p

/-- String starts with `file://`. -/
def startsWithFileScheme (p : Str) : Bool :=
  (("file://").toList).isPrefixOf p

/-- `generate_cloud_shadow_masks` from
`cfsi/scripts/masks/s2cloudless_masks.py` (lines 68–100).  The pixel shifts
`x = cos(azimuth_rad) * CLOUD_PROJECTION_DISTANCE` and
`y = sin(azimuth_rad) * CLOUD_PROJECTION_DISTANCE` are float products of the
trigonometry outside this model, so they enter as exact parameters; at a
cloud projection distance of `0` both are exactly `0.0`. -/
def generate_cloud_shadow_masks (x y : ℚ) (cloud_mask_array nir_array : Mat) :
    Except PyErr Mat :=
  let rows := cloud_mask_array.length
  let cols := (cloud_mask_array.headD []).length
  let new_rows := shadow_border_rows y cols
  let new_cols := shadow_border_cols x rows
  (if 0 < y then
      (npAppendRows cloud_mask_array new_rows).map (pySliceFrom (pyInt y))
    else
      (npAppendRows new_rows cloud_mask_array).map (pySliceTo (pyInt y))).bind
    (fun shadow₁ =>
      (if x < 0 then
          (npAppendCols new_cols shadow₁).map (List.map (pySliceTo (pyInt x)))
        else
          (npAppendCols shadow₁ new_cols).map (List.map (pySliceFrom (pyInt x)))).bind
        (fun shadow₂ =>
          let dark_pixels := nir_array.map
            (List.map (fun v => if v ≤ DARK_PIXEL_THRESHOLD then (1 : ℚ) else 0))
          npWhere3 cloud_mask_array shadow₂ dark_pixels))

end CFSI

namespace CFSI

lemma containsL_of_prefix {p s : Str} (h : p <+: s) : containsL p s = true := by
  cases s with
  | nil =>
    rw [List.prefix_nil] at h
    simp [containsL, h]
  | cons c t =>
    simp [containsL, List.isPrefixOf_iff_prefix, h]

lemma containsL_cons_of_tail {p : Str} (c : Char) {t : Str}
    (h : containsL p t = true) : containsL p (c :: t) = true := by
  simp [containsL, h]

lemma containsL_iff (p s : Str) : containsL p s = true ↔ ∃ j, p <+: s.drop j := by
  induction s with
  | nil =>
    simp [containsL, List.prefix_nil, List.isEmpty_iff]
  | cons c t ih =>
    simp only [containsL, Bool.or_eq_true, List.isPrefixOf_iff_prefix]
    constructor
    · rintro (h | h)
      · exact ⟨0, by simpa using h⟩
      · obtain ⟨j, hj⟩ := ih.mp h
        exact ⟨j + 1, by simpa [List.drop_succ_cons] using hj⟩
    · rintro ⟨j, hj⟩
      cases j with
      | zero => exact Or.inl (by simpa using hj)
      | succ j =>
        exact Or.inr (ih.mpr ⟨j, by simpa [List.drop_succ_cons] using hj⟩)

lemma containsL_of_drop {p s : Str} (n : ℕ) (h : containsL p (s.drop n) = true) :
    containsL p s = true := by
  rw [containsL_iff] at h ⊢
  obtain ⟨j, hj⟩ := h
  rw [List.drop_drop] at hj
  exact ⟨n + j, hj⟩

lemma prefix_of_append_of_le {p a b : Str} (h : p <+: a ++ b)
    (hl : p.length ≤ a.length) : p <+: a := by
  have hp := List.prefix_iff_eq_take.mp h
  rw [List.take_append_eq_append_take, Nat.sub_eq_zero_of_le hl,
    List.take_zero, List.append_nil] at hp
  rw [hp]
  exact List.take_prefix _ _

lemma append_prefix_of_le {p a b : Str} (h : p <+: a ++ b)
    (hl : a.length ≤ p.length) : a <+: p := by
  have hp := List.prefix_iff_eq_take.mp h
  rw [List.take_append_eq_append_take, List.take_all_of_le hl] at hp
  exact ⟨_, hp.symm⟩

lemma prefix_append_drop {p s : Str} (h : p <+: s) :
    p ++ s.drop p.length = s := by
  obtain ⟨r, rfl⟩ := h
  rw [List.drop_left]

lemma replAllAux_fuel {pat rep : Str} :
    ∀ f₁ f₂ s, s.length ≤ f₁ → s.length ≤ f₂ →
      replAllAux pat rep f₁ s = replAllAux pat rep f₂ s := by
  intro f₁
  induction f₁ with
  | zero =>
    intro f₂ s hs _
    have : s = [] := List.length_eq_zero.mp (Nat.le_zero.mp hs)
    subst this
    cases f₂ <;> rfl
  | succ f₁ ih =>
    intro f₂ s hs hs₂
    cases s with
    | nil => cases f₂ <;> rfl
    | cons c t =>
      cases f₂ with
      | zero => simp at hs₂
      | succ f₂ =>
        simp only [replAllAux]
        by_cases hg : pat ≠ [] ∧ pat.isPrefixOf (c :: t)
        · rw [if_pos hg, if_pos hg]
          have hp : 1 ≤ pat.length := List.length_pos.mpr hg.1
          have hd : ((c :: t).drop pat.length).length ≤ f₁ := by
            simp only [List.length_drop, List.length_cons]
            simp only [List.length_cons] at hs
            omega
          have hd₂ : ((c :: t).drop pat.length).length ≤ f₂ := by
            simp only [List.length_drop, List.length_cons]
            simp only [List.length_cons] at hs₂
            omega
          rw [ih f₂ _ hd hd₂]
        · rw [if_neg hg, if_neg hg]
          simp only [List.length_cons] at hs hs₂
          rw [ih f₂ t (by omega) (by omega)]

lemma replAll_nil (pat rep : Str) : replAll pat rep [] = [] := rfl

lemma replAll_pos {pat rep s : Str} (hpat : pat ≠ []) (h : pat <+: s) :
    replAll pat rep s = rep ++ replAll pat rep (s.drop pat.length) := by
  cases s with
  | nil =>
    rw [List.prefix_nil] at h
    exact absurd h hpat
  | cons c t =>
    have hg : pat ≠ [] ∧ pat.isPrefixOf (c :: t) :=
      ⟨hpat, List.isPrefixOf_iff_prefix.mpr h⟩
    simp only [replAll, List.length_cons, replAllAux, if_pos hg]
    congr 1
    apply replAllAux_fuel
    · have hp : 1 ≤ pat.length := List.length_pos.mpr hpat
      simp only [List.length_drop, List.length_cons]
      omega
    · exact le_refl _

lemma replAll_neg {pat rep : Str} {c : Char} {t : Str} (h : ¬ pat <+: (c :: t)) :
    replAll pat rep (c :: t) = c :: replAll pat rep t := by
  have hg : ¬ (pat ≠ [] ∧ pat.isPrefixOf (c :: t)) := by
    rintro ⟨_, h2⟩
    exact h (List.isPrefixOf_iff_prefix.mp h2)
  simp only [replAll, List.length_cons, replAllAux, if_neg hg]

/-- Tracking proper suffixes of a pattern `P` through `replAll pat rep`: when
no nontrivial suffix of `P` is a prefix of the replacement `rep`, a suffix of
`P` showing up at the front of the output must already have been at the front
of the input. -/
lemma replAll_track_suffix {pat rep P : Str} (hpat : pat ≠ [])
    (hlen : P.length ≤ rep.length)
    (hcross : ∀ k, k < P.length → 1 ≤ k → ¬ (P.drop k <+: rep)) :
    ∀ t k, 1 ≤ k → P.drop k <+: replAll pat rep t → P.drop k <+: t := by
  intro t
  induction t with
  | nil =>
    intro k _ h
    rwa [replAll_nil] at h
  | cons c t ih =>
    intro k hk h
    rcases Nat.lt_or_ge k P.length with hkP | hkP
    · by_cases hA1 : pat <+: (c :: t)
      · rw [replAll_pos hpat hA1] at h
        have hlt : (P.drop k).length ≤ rep.length := by
          rw [List.length_drop]
          omega
        exact absurd (prefix_of_append_of_le h hlt) (hcross k hkP hk)
      · rw [replAll_neg hA1] at h
        rw [List.drop_eq_getElem_cons hkP] at h ⊢
        rw [List.cons_prefix_cons] at h ⊢
        rcases Nat.lt_or_ge (k + 1) P.length with hk1 | hk1
        · exact ⟨h.1, ih (k + 1) (by omega) h.2⟩
        · have : P.drop (k + 1) = [] := List.drop_eq_nil_iff_le.mpr hk1
          rw [this]
          exact ⟨h.1, List.nil_prefix⟩
    · have : P.drop k = [] := List.drop_eq_nil_iff_le.mpr hkP
      rw [this]
      exact List.nil_prefix

/-- Round trip of `replAll`: replacing `A` by `B` and then `B` by `A` restores
any string that did not contain `B`, provided `B` has no nontrivial border
(no proper suffix of `B` is a prefix of `B`). -/
lemma replAll_roundtrip {A B : Str} (hA : A ≠ []) (hB : B ≠ [])
    (hborder : ∀ k, k < B.length → 1 ≤ k → ¬ (B.drop k <+: B)) :
    ∀ s, containsL B s = false → replAll B A (replAll A B s) = s := by
  have main : ∀ n s, s.length ≤ n → containsL B s = false →
      replAll B A (replAll A B s) = s := by
    intro n
    induction n with
    | zero =>
      intro s hs _
      have : s = [] := List.length_eq_zero.mp (Nat.le_zero.mp hs)
      subst this
      rw [replAll_nil, replAll_nil]
    | succ n ih =>
      intro s hs hnc
      cases s with
      | nil => rw [replAll_nil, replAll_nil]
      | cons c t =>
        by_cases hA1 : A <+: (c :: t)
        · rw [replAll_pos hA hA1]
          rw [replAll_pos hB (List.prefix_append B _)]
          rw [List.drop_left]
          have hlenA : 1 ≤ A.length := by
            cases hA2 : A with
            | nil => exact absurd hA2 hA
            | cons a l => simp
          have hrec := ih ((c :: t).drop A.length)
            (by
              simp only [List.length_cons] at hs
              simp only [List.length_drop, List.length_cons]
              omega)
            (by
              rcases hcd : containsL B ((c :: t).drop A.length) with h | h
              · rfl
              · exact absurd (containsL_of_drop A.length hcd) (by simp [hnc]))
          rw [hrec]
          exact prefix_append_drop hA1
        · rw [replAll_neg hA1]
          have hguard : ¬ B <+: (c :: replAll A B t) := by
            intro hpre
            cases hBe : B with
            | nil => exact absurd hBe hB
            | cons b B' =>
              rw [hBe] at hpre
              rw [List.cons_prefix_cons] at hpre
              have htail : B.drop 1 <+: replAll A B t := by
                rw [hBe]
                simpa using hpre.2
              have := replAll_track_suffix hA (le_refl B.length)
                hborder t 1 (le_refl 1) htail
              have hfull : B <+: (c :: t) := by
                rw [hBe, List.cons_prefix_cons]
                refine ⟨hpre.1, ?_⟩
                rw [hBe] at this
                simpa using this
              have := containsL_of_prefix hfull
              simp [hnc] at this
          rw [replAll_neg hguard]
          have hrec := ih t (by simp only [List.length_cons] at hs; omega)
            (by
              rcases hcd : containsL B t with h | h
              · rfl
              · have := containsL_cons_of_tail c hcd
                simp [hnc] at this)
          rw [hrec]
  intro s
  exact main s.length s (le_refl _)

/-- After `replAll A B`, no occurrence of `A` remains anywhere in the output,
for patterns of equal length that cannot recombine across replacement
boundaries. -/
lemma replAll_no_pat_left {A B : Str} (hA : A ≠ []) (hAB : A ≠ B)
    (hlenAB : A.length = B.length)
    (hcrossA : ∀ k, k < A.length → 1 ≤ k → ¬ (A.drop k <+: B))
    (hcrossB : ∀ j, j < B.length → 1 ≤ j → ¬ (B.drop j <+: A)) :
    ∀ s j, ¬ (A <+: (replAll A B s).drop j) := by
  have main : ∀ n s, s.length ≤ n → ∀ j, ¬ (A <+: (replAll A B s).drop j) := by
    intro n
    induction n with
    | zero =>
      intro s hs j hpre
      have : s = [] := List.length_eq_zero.mp (Nat.le_zero.mp hs)
      subst this
      rw [replAll_nil] at hpre
      simp only [List.drop_nil, List.prefix_nil] at hpre
      exact hA hpre
    | succ n ih =>
      intro s hs j hpre
      cases s with
      | nil =>
        rw [replAll_nil] at hpre
        simp only [List.drop_nil, List.prefix_nil] at hpre
        exact hA hpre
      | cons c t =>
        have hlenA : 1 ≤ A.length := List.length_pos.mpr hA
        by_cases hA1 : A <+: (c :: t)
        · rw [replAll_pos hA hA1, List.drop_append_eq_append_drop] at hpre
          rcases Nat.lt_or_ge j B.length with hj | hj
          · rw [Nat.sub_eq_zero_of_le (le_of_lt hj), List.drop_zero] at hpre
            cases Nat.eq_zero_or_pos j with
            | inl hj0 =>
              subst hj0
              rw [List.drop_zero] at hpre
              have := prefix_of_append_of_le hpre (le_of_eq hlenAB)
              exact hAB (List.IsPrefix.eq_of_length this hlenAB)
            | inr hj1 =>
              have hlb : (B.drop j).length ≤ A.length := by
                rw [List.length_drop]
                omega
              exact hcrossB j hj hj1 (append_prefix_of_le hpre hlb)
          · rw [List.drop_eq_nil_iff_le.mpr hj, List.nil_append] at hpre
            have hd : ((c :: t).drop A.length).length ≤ n := by
              simp only [List.length_drop, List.length_cons]
              simp only [List.length_cons] at hs
              omega
            exact ih _ hd _ hpre
        · rw [replAll_neg hA1] at hpre
          cases j with
          | zero =>
            rw [List.drop_zero] at hpre
            cases hAe : A with
            | nil => exact hA hAe
            | cons a A' =>
              rw [hAe, List.cons_prefix_cons] at hpre
              have htail : A.drop 1 <+: replAll A B t := by
                rw [hAe]
                simpa using hpre.2
              have hback := replAll_track_suffix hA (le_of_eq hlenAB)
                hcrossA t 1 (le_refl 1) htail
              apply hA1
              rw [hAe, List.cons_prefix_cons]
              refine ⟨hpre.1, ?_⟩
              rw [hAe] at hback
              simpa using hback
          | succ j =>
            rw [List.drop_succ_cons] at hpre
            simp only [List.length_cons] at hs
            exact ih t (by omega) j hpre
  intro s
  exact main s.length s (le_refl _)

/-- Whenever the pattern occurs in the input, `replAll` puts at least one
copy of the replacement into the output. -/
lemma replAll_inserts_rep {A B : Str} (hA : A ≠ []) :
    ∀ s, containsL A s = true → containsL B (replAll A B s) = true := by
  intro s
  induction s with
  | nil =>
    intro h
    simp only [containsL, List.isEmpty_iff] at h
    exact absurd h hA
  | cons c t ih =>
    intro h
    by_cases hA1 : A <+: (c :: t)
    · rw [replAll_pos hA hA1]
      exact containsL_of_prefix (List.prefix_append B _)
    · rw [replAll_neg hA1]
      apply containsL_cons_of_tail
      apply ih
      simp only [containsL, Bool.or_eq_true, List.isPrefixOf_iff_prefix] at h
      rcases h with h | h
      · exact absurd h hA1
      · exact h

lemma l1c_bucket_ne_nil : L1C_BUCKET ≠ [] := by decide

lemma l2a_bucket_ne_nil : L2A_BUCKET ≠ [] := by decide

lemma l1c_ne_l2a : L1C_BUCKET ≠ L2A_BUCKET := by decide

lemma bucket_length_eq : L1C_BUCKET.length = L2A_BUCKET.length := by decide

lemma border_free_l2a :
    ∀ k, k < L2A_BUCKET.length → 1 ≤ k → ¬ (L2A_BUCKET.drop k <+: L2A_BUCKET) := by
  decide

lemma border_free_l1c :
    ∀ k, k < L1C_BUCKET.length → 1 ≤ k → ¬ (L1C_BUCKET.drop k <+: L1C_BUCKET) := by
  decide

lemma cross_free_l1c_l2a :
    ∀ k, k < L1C_BUCKET.length → 1 ≤ k → ¬ (L1C_BUCKET.drop k <+: L2A_BUCKET) := by
  decide

lemma cross_free_l2a_l1c :
    ∀ k, k < L2A_BUCKET.length → 1 ≤ k → ¬ (L2A_BUCKET.drop k <+: L1C_BUCKET) := by
  decide

/-- C4: the mask generator's threshold check accepts a candidate if and only
if `minCloudThreshold ≤ p ≤ maxCloudThreshold`; equality with either bound is
accepted, and strictly outside either bound is skipped. -/
theorem c4_threshold_boundary (p maxCloud minCloud : ℚ) :
    (check_clouds_in_threshold p maxCloud minCloud).2 = true ↔
      minCloud ≤ p ∧ p ≤ maxCloud := by
  constructor
  · intro h
    unfold check_clouds_in_threshold at h
    simp only at h
    split_ifs at h with h1 h2
    exact ⟨le_of_not_lt h2, le_of_not_lt h1⟩
  · rintro ⟨hmn, hmx⟩
    unfold check_clouds_in_threshold
    simp only
    split_ifs with h1 h2
    · linarith
    · linarith
    · rfl

/-- C8: if the catalog search for the mask product over
`[endDate - days, endDate]` returns no datasets, constructing the
`MosaicCreator` fails with an error surfaced to the caller (the source's
`ValueError("No datasets found")`, the spec's `NoMasks`) instead of
producing an empty mosaic. -/
theorem c8_empty_search_fails (findDatasets : Str → ℤ × ℤ → List DSHandle)
    (product : Str) (endDate days : ℤ)
    (h : findDatasets product (endDate - days, endDate) = []) :
    MosaicCreator.init findDatasets product endDate days =
      Except.error PyErr.valueError := by
  unfold MosaicCreator.init get_mask_datasets
  simp [h]

/-- Witness for C8 at a concrete catalog that finds nothing. -/
theorem c8_empty_search_fails_witness :
    MosaicCreator.init (fun _ _ => []) ("s2_level1c_s2cloudless").toList 18628 30 =
      Except.error PyErr.valueError :=
  c8_empty_search_fails (fun _ _ => []) (("s2_level1c_s2cloudless").toList) 18628 30 rfl

/-- C9 counterexample: `swap_s2_bucket_names` is not an involution on every
URI containing a bucket name.  On a URI containing both bucket names the L1C
branch rewrites every L1C occurrence, and the second application then
rewrites every L2A occurrence — including the one that was already L2A in
the input — so the round trip does not restore the input. -/
theorem c9_swap_involution_counterexample :
    swapTwice (("s3://sentinel-s2-l1c/k/sentinel-s2-l2a").toList) =
      Except.ok (("s3://sentinel-s2-l1c/k/sentinel-s2-l1c").toList) ∧
    (("s3://sentinel-s2-l1c/k/sentinel-s2-l1c").toList : Str) ≠
      ("s3://sentinel-s2-l1c/k/sentinel-s2-l2a").toList := by
  exact ⟨rfl, by decide⟩

/-- C9 amended: `swap_s2_bucket_names` is an involution on every string that
contains exactly one of the two bucket names (however many occurrences), and
raises `ValueError` on strings containing neither.  On strings containing
both bucket names the round trip is not the identity. -/
theorem c9_swap_involution_amended (u : Str) :
    (containsL L1C_BUCKET u = true → containsL L2A_BUCKET u = false →
      swapTwice u = Except.ok u) ∧
    (containsL L2A_BUCKET u = true → containsL L1C_BUCKET u = false →
      swapTwice u = Except.ok u) ∧
    (containsL L1C_BUCKET u = false → containsL L2A_BUCKET u = false →
      swap_s2_bucket_names u = Except.error PyErr.valueError) := by
  refine ⟨?_, ?_, ?_⟩
  · intro h1 h2
    have hfirst : swap_s2_bucket_names u =
        Except.ok (replAll L1C_BUCKET L2A_BUCKET u) := by
      simp [swap_s2_bucket_names, h1]
    have hnol1c :
        containsL L1C_BUCKET (replAll L1C_BUCKET L2A_BUCKET u) = false := by
      rcases hb : containsL L1C_BUCKET (replAll L1C_BUCKET L2A_BUCKET u) with h | h
      · rfl
      · obtain ⟨j, hj⟩ := (containsL_iff _ _).mp hb
        exact absurd hj (replAll_no_pat_left l1c_bucket_ne_nil l1c_ne_l2a
          bucket_length_eq cross_free_l1c_l2a cross_free_l2a_l1c u j)
    have hl2a :
        containsL L2A_BUCKET (replAll L1C_BUCKET L2A_BUCKET u) = true :=
      replAll_inserts_rep l1c_bucket_ne_nil u h1
    have hsecond : swap_s2_bucket_names (replAll L1C_BUCKET L2A_BUCKET u) =
        Except.ok (replAll L2A_BUCKET L1C_BUCKET
          (replAll L1C_BUCKET L2A_BUCKET u)) := by
      simp [swap_s2_bucket_names, hnol1c, hl2a]
    unfold swapTwice
    rw [hfirst]
    simp only [Except.bind]
    rw [hsecond]
    rw [replAll_roundtrip l1c_bucket_ne_nil l2a_bucket_ne_nil border_free_l2a u h2]
  · intro h1 h2
    have hfirst : swap_s2_bucket_names u =
        Except.ok (replAll L2A_BUCKET L1C_BUCKET u) := by
      simp [swap_s2_bucket_names, h1, h2]
    have hl1c :
        containsL L1C_BUCKET (replAll L2A_BUCKET L1C_BUCKET u) = true :=
      replAll_inserts_rep l2a_bucket_ne_nil u h1
    have hsecond : swap_s2_bucket_names (replAll L2A_BUCKET L1C_BUCKET u) =
        Except.ok (replAll L1C_BUCKET L2A_BUCKET
          (replAll L2A_BUCKET L1C_BUCKET u)) := by
      simp [swap_s2_bucket_names, hl1c]
    unfold swapTwice
    rw [hfirst]
    simp only [Except.bind]
    rw [hsecond]
    rw [replAll_roundtrip l2a_bucket_ne_nil l1c_bucket_ne_nil border_free_l1c u h2]
  · intro h1 h2
    simp [swap_s2_bucket_names, h1, h2]

/-- Witness for the amended C9 on a concrete L1C-only URI. -/
theorem c9_swap_involution_amended_witness :
    swapTwice (("s3://sentinel-s2-l1c/tiles/35/P/PM/2020/10/12/0").toList) =
      Except.ok (("s3://sentinel-s2-l1c/tiles/35/P/PM/2020/10/12/0").toList) :=
  (c9_swap_involution_amended _).1 (by decide) (by decide)

/-- C10: `swap_s2_bucket_names` rewrites every occurrence of the bucket-name
substring anywhere in the URI, not only in the bucket path segment.  The L1C
branch is taken whenever the string contains the L1C bucket name — even when
it also contains the L2A name elsewhere — it replaces all occurrences (none
remains in the output), and a key-portion occurrence is rewritten too, as the
concrete evaluation shows. -/
theorem c10_replace_all_occurrences :
    (∀ u, containsL L1C_BUCKET u = true →
        swap_s2_bucket_names u = Except.ok (replAll L1C_BUCKET L2A_BUCKET u)) ∧
    (∀ u j, ¬ (L1C_BUCKET <+: (replAll L1C_BUCKET L2A_BUCKET u).drop j)) ∧
    swap_s2_bucket_names
        (("s3://sentinel-s2-l1c/key/sentinel-s2-l2a/sentinel-s2-l1c").toList) =
      Except.ok (("s3://sentinel-s2-l2a/key/sentinel-s2-l2a/sentinel-s2-l2a").toList) := by
  refine ⟨?_, ?_, ?_⟩
  · intro u h
    simp [swap_s2_bucket_names, h]
  · exact replAll_no_pat_left l1c_bucket_ne_nil l1c_ne_l2a bucket_length_eq
      cross_free_l1c_l2a cross_free_l2a_l1c
  · rfl

/-- Witness for C10 on a concrete URI with the bucket name in the key. -/
theorem c10_replace_all_occurrences_witness :
    swap_s2_bucket_names (("x/sentinel-s2-l1c/y").toList) =
      Except.ok (replAll L1C_BUCKET L2A_BUCKET (("x/sentinel-s2-l1c/y").toList)) :=
  c10_replace_all_occurrences.1 _ (by decide)

lemma getD_lt_drop {α : Type} (l : List α) (k i : ℕ) (d : α) (h : k + i < l.length) :
    (l.drop k).getD i d = l.getD (k + i) d := by
  rw [List.getD_eq_getElem _ _ (show i < (l.drop k).length by
      simp only [List.length_drop]; omega),
    List.getD_eq_getElem _ _ h, List.getElem_drop]

lemma getD_lt_map {α β : Type} (f : α → β) (l : List α) (i : ℕ) (d : β) (e : α)
    (h : i < l.length) : (l.map f).getD i d = f (l.getD i e) := by
  rw [List.getD_eq_getElem _ _ (by simpa using h), List.getD_eq_getElem _ _ h,
    List.getElem_map]

lemma getD_lt_replicate {α : Type} (n i : ℕ) (v d : α) (h : i < n) :
    (List.replicate n v).getD i d = v := by
  rw [List.getD_eq_getElem _ _ (by simpa using h), List.getElem_replicate]

lemma zipWith3_getD {α β γ δ : Type} (f : α → β → γ → δ) (da : α) (db : β)
    (dc : γ) (dd : δ) :
    ∀ (a : List α) (b : List β) (c : List γ) (i : ℕ),
      i < a.length → i < b.length → i < c.length →
      (zipWith3 f a b c).getD i dd = f (a.getD i da) (b.getD i db) (c.getD i dc) := by
  intro a
  induction a with
  | nil =>
    intro b c i ha
    simp at ha
  | cons av as ih =>
    intro b c i ha hb hc
    cases b with
    | nil => simp at hb
    | cons bv bs =>
      cases c with
      | nil => simp at hc
      | cons cv cs =>
        cases i with
        | zero => simp [zipWith3]
        | succ i =>
          simp only [zipWith3, List.getD_cons_succ]
          exact ih bs cs i (by simpa using ha) (by simpa using hb) (by simpa using hc)

lemma zipWith_append_replicate_nil :
    ∀ (m : Mat), List.zipWith (fun ra rb => ra ++ rb) m (List.replicate m.length []) = m := by
  intro m
  induction m with
  | nil => rfl
  | cons row rest ih =>
    simp only [List.length_cons, List.replicate_succ, List.zipWith_cons_cons,
      List.append_nil, ih]

lemma IsRect.row_length {m : Mat} {r c i : ℕ} (h : IsRect m r c) (hi : i < r) :
    (m.getD i []).length = c := by
  have hlen : i < m.length := by rw [h.1]; exact hi
  rw [List.getD_eq_getElem _ _ hlen]
  exact h.2 _ (List.getElem_mem hlen)

lemma IsRect.head_length {m : Mat} {r c : ℕ} (h : IsRect m r c) (hr : 1 ≤ r) :
    (m.headD []).length = c := by
  cases m with
  | nil =>
    have := h.1
    simp at this
    omega
  | cons row rest => exact h.2 row (by simp)

lemma IsRect.append {a b : Mat} {r₁ r₂ c : ℕ} (ha : IsRect a r₁ c)
    (hb : IsRect b r₂ c) : IsRect (a ++ b) (r₁ + r₂) c := by
  refine ⟨by simp [ha.1, hb.1], ?_⟩
  intro row hrow
  rcases List.mem_append.mp hrow with h | h
  · exact ha.2 _ h
  · exact hb.2 _ h

lemma isRect_npFull (k c : ℕ) (v : ℚ) : IsRect (npFull k c v) k c := by
  refine ⟨by simp [npFull], ?_⟩
  intro row hrow
  rw [List.eq_of_mem_replicate hrow]
  simp

lemma IsRect.drop_rows {m : Mat} {r c : ℕ} (h : IsRect m r c) (k : ℕ) :
    IsRect (m.drop k) (r - k) c := by
  refine ⟨by simp [h.1], ?_⟩
  intro row hrow
  exact h.2 row (List.mem_of_mem_drop hrow)

lemma IsRect.map_rows {m : Mat} {r c : ℕ} (h : IsRect m r c) (g : ℚ → ℚ) :
    IsRect (m.map (List.map g)) r c := by
  refine ⟨by simp [h.1], ?_⟩
  intro row hrow
  obtain ⟨row₀, hmem, rfl⟩ := List.mem_map.mp hrow
  simp [h.2 _ hmem]

lemma rowLensEq_of_rect {m : Mat} {r c : ℕ} (h : IsRect m r c) :
    rowLensEq m = true := by
  cases m with
  | nil => rfl
  | cons row rest =>
    simp only [rowLensEq, List.all_eq_true]
    intro q hq
    have h1 := h.2 q (List.mem_cons_of_mem _ hq)
    have h2 := h.2 row (List.mem_cons_self _ _)
    simp [h1, h2]

lemma sameShape_of_rect {a b : Mat} {r c : ℕ} (ha : IsRect a r c)
    (hb : IsRect b r c) : sameShape a b = true := by
  unfold sameShape
  rw [Bool.and_eq_true]
  refine ⟨by simp [ha.1, hb.1], ?_⟩
  rw [List.all_eq_true]
  intro p hp
  obtain ⟨h1, h2⟩ := List.mem_zip hp
  simp [ha.2 _ h1, hb.2 _ h2]

lemma pySliceFrom_zero {α : Type} (l : List α) : pySliceFrom 0 l = l := by
  simp [pySliceFrom]

lemma firstNonzero_cons (v : ℤ) (l : List ℤ) :
    firstNonzero (v :: l) = if v = 0 then firstNonzero l else v := by
  by_cases h : v = 0 <;> simp [firstNonzero, List.find?_cons, h]

lemma foldl_fillStep_eval (l : List Grid) : ∀ (init : Grid) (x y : ℕ),
    (l.foldl fillStep init) x y =
      if init x y = 0 then firstNonzero (l.map (fun g => g x y)) else init x y := by
  induction l with
  | nil =>
    intro init x y
    by_cases h : init x y = 0 <;> simp [firstNonzero, h]
  | cons s l ih =>
    intro init x y
    rw [List.foldl_cons, ih, List.map_cons, firstNonzero_cons]
    by_cases h : init x y = 0 <;> simp [fillStep, h]

lemma nthZ_append_left {l₁ l₂ : List ℤ} {i : ℕ} (h : i < l₁.length) :
    nthZ (l₁ ++ l₂) i = nthZ l₁ i :=
  List.getD_append l₁ l₂ 0 i h

lemma nthZ_append_self (l : List ℤ) (a : ℤ) : nthZ (l ++ [a]) l.length = a := by
  rw [nthZ, List.getD_append_right l [a] 0 l.length (le_refl _)]
  simp [List.getD]

lemma firstNonzero_reverse_all_zero :
    ∀ (l : List ℤ), (∀ j, j < l.length → nthZ l j = 0) →
      firstNonzero l.reverse = 0 := by
  intro l
  induction l using List.reverseRecOn with
  | nil => intro _; simp [firstNonzero]
  | append_singleton l a ih =>
    intro h
    rw [List.reverse_append]
    simp only [List.reverse_cons, List.reverse_nil, List.nil_append,
      List.singleton_append]
    rw [firstNonzero_cons]
    have ha : a = 0 := by
      have := h l.length (by simp)
      rwa [nthZ_append_self] at this
    rw [if_pos ha]
    apply ih
    intro j hj
    have := h j (by simp only [List.length_append, List.length_singleton]; omega)
    rwa [nthZ_append_left hj] at this

lemma firstNonzero_reverse_greatest :
    ∀ (l : List ℤ) (i : ℕ), i < l.length → nthZ l i ≠ 0 →
      (∀ j, j < l.length → i < j → nthZ l j = 0) →
      firstNonzero l.reverse = nthZ l i := by
  intro l
  induction l using List.reverseRecOn with
  | nil => intro i hi; simp at hi
  | append_singleton l a ih =>
    intro i hi hne hmax
    rw [List.reverse_append]
    simp only [List.reverse_cons, List.reverse_nil, List.nil_append,
      List.singleton_append]
    rw [firstNonzero_cons]
    rcases Nat.lt_or_ge i l.length with hil | hil
    · have ha : a = 0 := by
        have := hmax l.length (by simp) hil
        rwa [nthZ_append_self] at this
      rw [if_pos ha, nthZ_append_left hil]
      apply ih i hil (by rwa [nthZ_append_left hil] at hne)
      intro j hj hij
      have := hmax j (by simp only [List.length_append, List.length_singleton]; omega) hij
      rwa [nthZ_append_left hj] at this
    · have hieq : i = l.length := by
        simp only [List.length_append, List.length_singleton] at hi
        omega
      subst hieq
      rw [nthZ_append_self] at hne ⊢
      rw [if_neg hne]

lemma mosaic_from_data_array_eval {ms : List Grid} {a : Grid}
    (hL : ms.getLast? = some a) (x y : ℕ) :
    mosaic_from_data_array ms =
      some ((ms.dropLast.reverse).foldl fillStep a) ∧
    ((ms.dropLast.reverse).foldl fillStep a) x y =
      firstNonzero ((ms.map (fun g => g x y)).reverse) := by
  constructor
  · simp only [mosaic_from_data_array, hL]
  · have hne : ms ≠ [] := by
      intro h
      rw [h] at hL
      simp at hL
    have hdec : ms.dropLast ++ [a] = ms := by
      have h1 := List.dropLast_concat_getLast hne
      have h2 : ms.getLast hne = a := by
        have := List.getLast?_eq_getLast ms hne
        rw [hL] at this
        exact (Option.some_inj.mp this).symm
      rwa [h2] at h1
    rw [foldl_fillStep_eval]
    have hmap : ms.map (fun g => g x y) =
        ms.dropLast.map (fun g => g x y) ++ [a x y] := by
      conv_lhs => rw [← hdec]
      rw [List.map_append]
      rfl
    rw [hmap, List.reverse_append]
    simp only [List.reverse_cons, List.reverse_nil, List.nil_append,
      List.singleton_append]
    rw [firstNonzero_cons, List.map_reverse]

/-- C1: for every band and pixel, the masked-stack reduction of
`MosaicCreator` (apply the clear predicate by setting non-clear pixels to 0,
seed with the latest slice, then fill still-zero pixels from later to older
slices) returns the value of the time slice with the greatest time `t` whose
pixel survives masking as nonzero — the clear predicate evaluated after
masked pixels are set to 0 — and `0` when no such `t` exists.  The stack is a
time-ascending list of (clear predicate, band slice) pairs. -/
theorem c1_mosaic_most_recent_clear
    (stack : List ((ℕ → ℕ → Bool) × Grid)) (hne : stack ≠ []) (x y : ℕ) :
    ∃ out,
      mosaic_from_data_array (stack.map (fun p => whereMask p.1 p.2)) = some out ∧
      ((∀ t, t < stack.length →
          nthZ (stack.map (fun p => whereMask p.1 p.2 x y)) t = 0) →
        out x y = 0) ∧
      (∀ t, t < stack.length →
        nthZ (stack.map (fun p => whereMask p.1 p.2 x y)) t ≠ 0 →
        (∀ u, u < stack.length → t < u →
          nthZ (stack.map (fun p => whereMask p.1 p.2 x y)) u = 0) →
        out x y = nthZ (stack.map (fun p => whereMask p.1 p.2 x y)) t) := by
  have hmsne : stack.map (fun p => whereMask p.1 p.2) ≠ [] := by
    intro h
    exact hne (List.map_eq_nil.mp h)
  obtain ⟨a, hL⟩ : ∃ a, (stack.map (fun p => whereMask p.1 p.2)).getLast? = some a := by
    cases h : (stack.map (fun p => whereMask p.1 p.2)).getLast? with
    | none => exact absurd (List.getLast?_eq_none.mp h) hmsne
    | some a => exact ⟨a, rfl⟩
  obtain ⟨hout, heval⟩ := mosaic_from_data_array_eval hL x y
  refine ⟨_, hout, ?_, ?_⟩
  all_goals
    rw [heval]
    have hmm : (stack.map (fun p => whereMask p.1 p.2)).map (fun g => g x y) =
        stack.map (fun p => whereMask p.1 p.2 x y) := by
      rw [List.map_map]
      rfl
    rw [hmm]
    have hlen : (stack.map (fun p => whereMask p.1 p.2 x y)).length = stack.length :=
      List.length_map _ _
  · intro hall
    refine firstNonzero_reverse_all_zero _ ?_
    intro j hj
    rw [hlen] at hj
    exact hall j hj
  · intro t ht htne hmax
    refine firstNonzero_reverse_greatest _ t ?_ htne ?_
    · rw [hlen]
      exact ht
    · intro j hj hij
      rw [hlen] at hj
      exact hmax j hj hij

/-- Witness for C1 on a two-slice stack where the latest slice is clear and
nonzero at the probed pixel. -/
theorem c1_mosaic_most_recent_clear_witness :
    ∃ out,
      mosaic_from_data_array
        (([((fun _ _ => true), (fun _ _ => (5 : ℤ))),
           ((fun _ _ => true), (fun _ _ => (7 : ℤ)))] :
          List ((ℕ → ℕ → Bool) × Grid)).map (fun p => whereMask p.1 p.2)) =
        some out ∧
      out 0 0 = 7 := by
  obtain ⟨out, hout, _, hgreat⟩ := c1_mosaic_most_recent_clear
    ([((fun _ _ => true), (fun _ _ => (5 : ℤ))),
      ((fun _ _ => true), (fun _ _ => (7 : ℤ)))]) (by simp) 0 0
  refine ⟨out, hout, ?_⟩
  have h7 : nthZ
      (([((fun _ _ => true), (fun _ _ => (5 : ℤ))),
         ((fun _ _ => true), (fun _ _ => (7 : ℤ)))] :
        List ((ℕ → ℕ → Bool) × Grid)).map (fun p => whereMask p.1 p.2 0 0)) 1 = 7 := by
    simp [nthZ, whereMask]
  have hfin := hgreat 1 (by simp) (by rw [h7]; decide)
    (fun u hu hgt => absurd hgt (by simp at hu; omega))
  rw [hfin, h7]

/-- C2 counterexample: the shifted cloud mask is padded with border value
`1`, not `2` (`new_rows[:] = 1`, `new_cols[:] = 1` in the source), and `1`
is exactly the shadow-candidate value, so a pixel whose shifted source lies
outside the image can become a shadow candidate.  Concretely, on a 1×1
cloud-free dark image with shifts `x = 1/2`, `y = 3/2` the single pixel's
shifted source lies outside the image, yet the returned shadow mask marks it
`1`. -/
theorem c2_border_value_counterexample :
    shadow_border_rows (3 / 2) 1 = [[1]] ∧
    ([[1]] : Mat) ≠ [[2]] ∧
    generate_cloud_shadow_masks (1 / 2) (3 / 2) [[0]] [[0]] = Except.ok [[1]] := by
  refine ⟨?_, ?_, ?_⟩
  · norm_num [shadow_border_rows, npFull, pyInt]
  · intro h
    have h00 := congrArg (fun mm : Mat => nthQ mm 0 0) h
    simp only [nthQ, List.getD_cons_zero] at h00
    exact absurd h00 (by norm_num)
  · norm_num [generate_cloud_shadow_masks, shadow_border_rows, shadow_border_cols,
      npFull, pyInt, pySliceTo, pySliceFrom, npAppendRows, npAppendCols, rowLensEq,
      npWhere3, sameShape, zipWith3, whereCSD, DARK_PIXEL_THRESHOLD, Except.map,
      Except.bind]

/-- C2 amended: the shifted cloud mask is padded with a border whose cells
all have value `1` — equal to the shadow-candidate value — so every pixel
whose shifted source lies outside the image reads shifted value `1` and
becomes a shadow candidate exactly when it is cloud-free and dark.  Stated
for an upward row shift `0 < y` with `int(y)` rows in range and a column
shift `0 ≤ x < 1` (no column displacement): the bottom `int(y)` rows of the
output equal `1` precisely where the cloud mask is `0` and the NIR value is
at most the dark-pixel threshold. -/
theorem c2_border_one_amended (cloud nir : Mat) (r c : ℕ) (hr : 1 ≤ r)
    (hcl : IsRect cloud r c) (hnir : IsRect nir r c)
    (x y : ℚ) (hx0 : 0 ≤ x) (hx1 : x < 1) (hy : 0 < y)
    (hk : (pyInt y).natAbs ≤ r) :
    ∃ m, generate_cloud_shadow_masks x y cloud nir = Except.ok m ∧
      ∀ i j, r - (pyInt y).natAbs ≤ i → i < r → j < c →
        nthQ m i j =
          (if nthQ cloud i j = 0 ∧ nthQ nir i j ≤ DARK_PIXEL_THRESHOLD
            then 1 else 0) := by
  have hy0 : 0 ≤ y := le_of_lt hy
  have hpy0 : 0 ≤ pyInt y := by
    simp only [pyInt, if_pos hy0]
    exact Int.floor_nonneg.mpr hy0
  set k := (pyInt y).natAbs with hkdef
  have htn : (pyInt y).toNat = k := by omega
  have hpx : pyInt x = 0 := by
    simp only [pyInt, if_pos hx0]
    rw [Int.floor_eq_zero_iff]
    exact ⟨hx0, hx1⟩
  have hcols : (cloud.headD []).length = c := hcl.head_length hr
  have hpad : IsRect (shadow_border_rows y ((cloud.headD []).length)) k c := by
    rw [hcols]
    exact isRect_npFull k c 1
  have happ : IsRect (cloud ++ shadow_border_rows y ((cloud.headD []).length))
      (r + k) c := hcl.append hpad
  have hsh1 : IsRect ((cloud ++ shadow_border_rows y ((cloud.headD []).length)).drop k)
      r c := by
    have := happ.drop_rows k
    rwa [Nat.add_sub_cancel] at this
  set g : ℚ → ℚ := fun v => if v ≤ DARK_PIXEL_THRESHOLD then (1 : ℚ) else 0 with hgdef
  have hdark : IsRect (nir.map (List.map g)) r c := hnir.map_rows g
  set shadow₁ : Mat := (cloud ++ shadow_border_rows y ((cloud.headD []).length)).drop k
    with hsh1def
  set dark : Mat := nir.map (List.map g) with hdarkdef
  set m : Mat := zipWith3 (fun rc rs rd => zipWith3 whereCSD rc rs rd)
    cloud shadow₁ dark with hmdef
  have hcomp : generate_cloud_shadow_masks x y cloud nir = Except.ok m := by
    simp only [generate_cloud_shadow_masks]
    rw [if_pos hy]
    have hrl : rowLensEq (cloud ++ shadow_border_rows y ((cloud.headD []).length)) =
        true := rowLensEq_of_rect happ
    simp only [npAppendRows, if_pos hrl, Except.map, Except.bind]
    have hslice : pySliceFrom (pyInt y)
        (cloud ++ shadow_border_rows y ((cloud.headD []).length)) = shadow₁ := by
      simp only [pySliceFrom, if_pos hpy0, htn, hsh1def]
    rw [hslice]
    rw [if_neg (not_lt.mpr hx0)]
    have hcolsmat : shadow_border_cols x cloud.length = List.replicate r [] := by
      simp only [shadow_border_cols, hpx, npFull, Int.natAbs_zero, List.replicate_zero]
      rw [hcl.1]
    rw [hcolsmat]
    have hlen1 : shadow₁.length = r := hsh1.1
    have hbeq : (shadow₁.length == (List.replicate r ([] : List ℚ)).length) = true := by
      simp [hlen1]
    simp only [npAppendCols, hbeq, if_pos, Except.map, Except.bind]
    have hzip : List.zipWith (fun ra rb => ra ++ rb) shadow₁
        (List.replicate r ([] : List ℚ)) = shadow₁ := by
      conv_lhs => rw [← hlen1]
      exact zipWith_append_replicate_nil shadow₁
    rw [hzip]
    have hmapid : List.map (pySliceFrom (pyInt x)) shadow₁ = shadow₁ := by
      rw [hpx]
      have hfun : (pySliceFrom (0 : ℤ) : List ℚ → List ℚ) = id :=
        funext (fun l => pySliceFrom_zero l)
      rw [hfun, List.map_id]
    rw [hmapid]
    have hshape : (sameShape cloud shadow₁ && sameShape cloud dark) = true := by
      rw [Bool.and_eq_true]
      exact ⟨sameShape_of_rect hcl hsh1, sameShape_of_rect hcl hdark⟩
    simp only [npWhere3, if_pos hshape]
  refine ⟨m, hcomp, ?_⟩
  intro i j hlow hi hj
  have hcloudlen : i < cloud.length := by rw [hcl.1]; exact hi
  have hsh1len : i < shadow₁.length := by rw [hsh1.1]; exact hi
  have hdarklen : i < dark.length := by rw [hdark.1]; exact hi
  have hrow : m.getD i [] = zipWith3 whereCSD (cloud.getD i []) (shadow₁.getD i [])
      (dark.getD i []) := by
    rw [hmdef]
    exact zipWith3_getD _ [] [] [] [] cloud shadow₁ dark i hcloudlen hsh1len hdarklen
  have hjc : j < (cloud.getD i []).length := by rw [hcl.row_length hi]; exact hj
  have hjs : j < (shadow₁.getD i []).length := by rw [hsh1.row_length hi]; exact hj
  have hjd : j < (dark.getD i []).length := by rw [hdark.row_length hi]; exact hj
  have hcell : nthQ m i j = whereCSD (nthQ cloud i j) ((shadow₁.getD i []).getD j 0)
      ((dark.getD i []).getD j 0) := by
    unfold nthQ
    rw [hrow]
    exact zipWith3_getD whereCSD 0 0 0 0 _ _ _ j hjc hjs hjd
  have hshadow1 : (shadow₁.getD i []).getD j 0 = 1 := by
    rw [hsh1def]
    have hki : k + i < (cloud ++ shadow_border_rows y ((cloud.headD []).length)).length := by
      rw [happ.1]
      omega
    rw [getD_lt_drop _ k i [] hki]
    have hge : cloud.length ≤ k + i := by
      rw [hcl.1]
      omega
    rw [List.getD_append_right _ _ _ _ hge]
    have hrep : shadow_border_rows y ((cloud.headD []).length) =
        List.replicate k (List.replicate c 1) := by
      simp only [shadow_border_rows, npFull, hcols, ← hkdef]
    have hlt : k + i - cloud.length < k := by
      rw [hcl.1]
      omega
    rw [hrep, getD_lt_replicate _ _ _ _ hlt]
    exact getD_lt_replicate _ _ _ _ hj
  have hdarkcell : (dark.getD i []).getD j 0 = g (nthQ nir i j) := by
    rw [hdarkdef]
    have hnlen : i < nir.length := by rw [hnir.1]; exact hi
    rw [getD_lt_map _ _ _ _ [] hnlen]
    have hjn : j < (nir.getD i []).length := by rw [hnir.row_length hi]; exact hj
    exact getD_lt_map _ _ _ _ 0 hjn
  rw [hcell, hshadow1, hdarkcell]
  by_cases hd : nthQ nir i j ≤ DARK_PIXEL_THRESHOLD
  · simp only [hgdef, if_pos hd, whereCSD]
    by_cases hc0 : nthQ cloud i j = 0
    · simp [hc0, hd]
    · simp [hc0, hd]
  · simp only [hgdef, if_neg hd, whereCSD]
    have h01 : (0 : ℚ) ≠ 1 := by norm_num
    simp [hd, h01]

/-- Witness for the amended C2: the 1×1 cloud-free dark image with an
upward shift, whose single border-sourced pixel is marked as shadow. -/
theorem c2_border_one_amended_witness :
    ∃ m, generate_cloud_shadow_masks (1 / 2) (3 / 2) [[0]] [[0]] = Except.ok m ∧
      nthQ m 0 0 = 1 := by
  obtain ⟨m, hm, hpix⟩ := c2_border_one_amended [[0]] [[0]] 1 1 (le_refl 1)
    (by constructor <;> simp) (by constructor <;> simp)
    (1 / 2) (3 / 2) (by norm_num) (by norm_num) (by norm_num)
    (by norm_num [pyInt])
  refine ⟨m, hm, ?_⟩
  have := hpix 0 0 (by norm_num [pyInt]) (by omega) (by omega)
  rw [this]
  norm_num [nthQ, DARK_PIXEL_THRESHOLD]

/-- C3 is a code bug: with both computed pixel shifts `0` (cloud projection
distance `0` makes `x = cos(az)*0 = 0.0` and `y = sin(az)*0 = 0.0` exactly),
the `else` branch slices `[:int(y)] = [:0]`, producing an empty-row array
instead of leaving the mask unchanged, and the subsequent
`np.append(..., axis=1)` raises `ValueError` on the 0-versus-rows shape
mismatch.  The spec says a zero shift leaves the mask unchanged. -/
theorem c3_zero_shift_raises :
    generate_cloud_shadow_masks 0 0 [[0]] [[0]] = Except.error PyErr.valueError ∧
    Except.error PyErr.valueError ≠ Except.ok ([[(0 : ℚ)]] : Mat) := by
  constructor
  · norm_num [generate_cloud_shadow_masks, shadow_border_rows, shadow_border_cols,
      npFull, pyInt, pySliceTo, pySliceFrom, npAppendRows, npAppendCols, rowLensEq,
      npWhere3, sameShape, zipWith3, whereCSD, DARK_PIXEL_THRESHOLD, Except.map,
      Except.bind]
  · intro h
    exact Except.noConfusion h

/-- C7 counterexample: a mask dataset whose properties lack the
`l2a_dataset_id` key makes `__generate_mask_dict` raise `KeyError` — the
`except` clause only catches `ProductNotFoundException` — rather than being
skipped. -/
theorem c7_absent_key_fatal_counterexample :
    generate_mask_dict (fun _ => none) [⟨1, none, none⟩] =
      Except.error PyErr.keyError ∧
    (Except.error PyErr.keyError : Except PyErr (List (DatasetId × DatasetId))) ≠
      Except.ok [] := by
  exact ⟨rfl, fun h => Except.noConfusion h⟩

/-- C7 amended: a mask dataset whose `l2a_dataset_id` is present but null
and whose `l2a_uri` lookup misses in the catalog (the caught
`ProductNotFoundException`) is skipped, and the compositor continues with
the remaining masks without error; a mask whose properties lack the
`l2a_dataset_id` (or, on the fallback path, `l2a_uri`) key instead raises
`KeyError`. -/
theorem c7_null_id_lookup_miss_skips (lookup : Str → Option DatasetId)
    (ds : MaskDSProps) (rest : List MaskDSProps) (u : Str)
    (h1 : ds.l2a_dataset_id = some none) (h2 : ds.l2a_uri = some u)
    (h3 : lookup u = none) :
    generate_mask_dict lookup (ds :: rest) = generate_mask_dict lookup rest := by
  simp only [generate_mask_dict, h1, h2, h3]

/-- Witness for the amended C7: one null-id mask with a missing catalog
entry is skipped and the run finishes cleanly. -/
theorem c7_null_id_lookup_miss_skips_witness :
    generate_mask_dict (fun _ => none)
      [⟨1, some none, some (("s3://sentinel-s2-l2a/tiles/35/P/PM/2020/10/0").toList)⟩] =
      Except.ok [] :=
  (c7_null_id_lookup_miss_skips (fun _ => none) _ [] _ rfl rfl rfl).trans rfl

lemma catalogGet_replace (cat : Catalog) (id : Str) (doc : EO3Doc)
    (h : (catalogGet cat id).isSome = true) :
    catalogGet (cat.map (fun p => if p.1 = id then (id, doc) else p)) id =
      some doc := by
  induction cat with
  | nil => simp [catalogGet] at h
  | cons p rest ih =>
    by_cases hp : p.1 = id
    · simp [catalogGet, List.find?_cons, hp]
    · have hne : (p.1 == id) = false := by
        simp [hp]
      simp only [catalogGet, List.map_cons, List.find?_cons, if_neg hp, hne] at h ⊢
      exact ih h

/-- C6 counterexample: after a `metadata.xml` key has been indexed once, the
id exists in the catalog, yet re-running the per-key processing still
fetches, parses and calls `add` — there is no `exists` short-circuit in
`index_from_s3` (the declared `dataset_id_exists` is never consulted). -/
theorem c6_no_exists_shortcircuit_counterexample :
    dataset_id_exists
        ((index_from_s3_key (fun s => s) (fun _ => 0) [] L1C_BUCKET
          (("tiles/35/P/PM/2020/10/12/0/metadata.xml").toList)).1)
        (get_s3_uri L1C_BUCKET (("tiles/35/P/PM/2020/10/12/0/metadata.xml").toList)) =
      true ∧
    (index_from_s3_key (fun s => s) (fun _ => 0)
        ((index_from_s3_key (fun s => s) (fun _ => 0) [] L1C_BUCKET
          (("tiles/35/P/PM/2020/10/12/0/metadata.xml").toList)).1)
        L1C_BUCKET (("tiles/35/P/PM/2020/10/12/0/metadata.xml").toList)).2 =
      [IndexEffect.fetch, IndexEffect.parse, IndexEffect.addAttempt] := by
  exact ⟨rfl, rfl⟩

/-- C6 amended: re-running the indexer on an already-indexed key is
idempotent in catalog state — the identical regenerated document makes the
`add` path leave the record unchanged — but it is not a short-circuiting
no-op: the second pass fetches and parses again before touching the
catalog. -/
lemma add_dataset_get_self (cat : Catalog) (id : Str) (doc : EO3Doc) :
    catalogGet (add_dataset cat id doc).1 id = some doc := by
  unfold add_dataset
  cases hg : catalogGet cat id with
  | none =>
    show catalogGet ((id, doc) :: cat) id = some doc
    simp [catalogGet, List.find?_cons]
  | some existing =>
    by_cases he : existing = doc
    · simp only [if_pos he]
      show catalogGet cat id = some doc
      rw [hg, he]
    · simp only [if_neg he]
      show catalogGet (cat.map (fun p => if p.1 = id then (id, doc) else p)) id =
        some doc
      exact catalogGet_replace cat id doc (by rw [hg]; rfl)

lemma add_dataset_noop (cat : Catalog) (id : Str) (doc : EO3Doc)
    (h : catalogGet cat id = some doc) : (add_dataset cat id doc).1 = cat := by
  unfold add_dataset
  rw [h]
  simp

theorem c6_reindex_idempotent_state (md5hex : Str → Str) (fetchParse : Str → ℕ)
    (cat : Catalog) (bucket key : Str) :
    (index_from_s3_key md5hex fetchParse
        (index_from_s3_key md5hex fetchParse cat bucket key).1 bucket key).1 =
      (index_from_s3_key md5hex fetchParse cat bucket key).1 ∧
    IndexEffect.fetch ∈
      (index_from_s3_key md5hex fetchParse
        (index_from_s3_key md5hex fetchParse cat bucket key).1 bucket key).2 := by
  constructor
  · show (add_dataset
        (add_dataset cat (md5hex (get_s3_uri bucket key))
          (generate_doc bucket (get_s3_uri bucket key) (fetchParse key))).1
        (md5hex (get_s3_uri bucket key))
        (generate_doc bucket (get_s3_uri bucket key) (fetchParse key))).1 =
      (add_dataset cat (md5hex (get_s3_uri bucket key))
        (generate_doc bucket (get_s3_uri bucket key) (fetchParse key))).1
    exact add_dataset_noop _ _ _ (add_dataset_get_self cat _ _)
  · show IndexEffect.fetch ∈
      [IndexEffect.fetch, IndexEffect.parse] ++
        (add_dataset
          (index_from_s3_key md5hex fetchParse cat bucket key).1
          (md5hex (get_s3_uri bucket key))
          (generate_doc bucket (get_s3_uri bucket key) (fetchParse key))).2
    exact List.mem_append_left _ (List.mem_cons_self _ _)

/-- C5 counterexample: the s2cloudless mask document stores measurement
paths that are plain filesystem paths with no scheme — the container→host
translated path string itself — so a stored `measurements[*].path` starts
with neither `s3://` nor `file://`. -/
theorem c5_mask_paths_schemeless_counterexample :
    s2cloudless_doc_measurement_paths
        (("/output/tiles/35/P/PM/2020/10/0/s2cloudless/T35_clouds.tif").toList)
        (("/output/tiles/35/P/PM/2020/10/0/s2cloudless/T35_shadows.tif").toList)
        (("/output").toList) (("/host_out").toList) =
      [("/host_out/tiles/35/P/PM/2020/10/0/s2cloudless/T35_clouds.tif").toList,
       ("/host_out/tiles/35/P/PM/2020/10/0/s2cloudless/T35_shadows.tif").toList] ∧
    startsWithS3
      (("/host_out/tiles/35/P/PM/2020/10/0/s2cloudless/T35_clouds.tif").toList) =
      false ∧
    startsWithFileScheme
      (("/host_out/tiles/35/P/PM/2020/10/0/s2cloudless/T35_clouds.tif").toList) =
      false := by
  exact ⟨rfl, rfl, rfl⟩

/-- C5 amended: crawled granule documents store absolute `s3://` URIs for
every measurement path; the mask indexers instead store plain absolute
filesystem paths without a scheme — the s2cloudless indexer the
container→host translated path (which then begins with the host root), the
fmask indexer the path string as-is. -/
theorem c5_paths_amended :
    (∀ bucket key p, p ∈ s2_doc_measurement_paths bucket key →
      startsWithS3 p = true) ∧
    (∀ containerRoot hostRoot pth, containerRoot ≠ [] →
      containerRoot <+: pth → startsWithFileScheme pth = false →
      ∀ q ∈ container_path_to_global_path containerRoot hostRoot [pth],
        hostRoot <+: q) ∧
    (∀ ps, fmask_doc_measurement_paths ps = ps) := by
  refine ⟨?_, ?_, fun ps => rfl⟩
  · intro bucket key p hp
    unfold s2_doc_measurement_paths absolutify_s3_paths at hp
    rw [List.map_map] at hp
    obtain ⟨pair, _, rfl⟩ := List.mem_map.mp hp
    simp only [Function.comp]
    rw [startsWithS3, List.isPrefixOf_iff_prefix]
    unfold get_s3_uri
    simp only [List.append_assoc]
    exact List.prefix_append _ _
  · intro containerRoot hostRoot pth hne hpre hnofile q hq
    have h1 : (("file://").toList).isPrefixOf pth = false := hnofile
    unfold container_path_to_global_path at hq
    simp only [List.map_cons, List.map_nil, List.mem_singleton, h1,
      Bool.false_eq_true, if_false, List.nil_append] at hq
    rw [if_pos (List.isPrefixOf_iff_prefix.mpr hpre)] at hq
    subst hq
    rw [replAll_pos hne hpre]
    exact List.prefix_append _ _

/-- Witness for the amended C5 on a concrete crawled L1C key: the first
stored measurement path begins with `s3://`. -/
theorem c5_paths_amended_witness :
    startsWithS3 ((s2_doc_measurement_paths L1C_BUCKET
      (("tiles/35/P/PM/2020/10/12/0/metadata.xml").toList)).getD 0 []) = true :=
  c5_paths_amended.1 L1C_BUCKET (("tiles/35/P/PM/2020/10/12/0/metadata.xml").toList)
    _ (by decide)

end CFSI
